import Mathlib

/-!
Shallow embedding of the archcache hierarchical write-back cache
(`src/index.ts`, with `src/unnamed/part_000` = the `Item` class), together
with theorems settling the frozen claims about it.

Conventions of the embedding:
* JS timestamps (`Date.now()`) are passed in explicitly as a `now : Nat`
  argument; JS numbers used as times are `Nat`.
* A JS promise that can reject is `Except ε ρ`; a value that can be
  `undefined` is `Option`.
* The `_dict` field of the TS `Cache` class is a JS `Map`; it is modelled
  as an insertion-ordered association list (`EntryList`) with `Map.get`,
  `Map.set`, `Map.has` semantics.  A crucial point of JS semantics: a
  `for..in` loop enumerates the own enumerable string properties of an object,
  and a `Map` keeps its entries in internal slots, not as properties, so
  `for..in` over a `Map` visits no keys at all.  The TS methods `settings`,
  `cleanup` and `_cleanNoSave` iterate with `for (const k in dict)` and
  therefore never execute their loop bodies; the embedding models those
  loops as visiting the empty key list (see `forInKeys`).
-/

namespace Archcache

/-- A JS value passed where a string key is expected: either an actual
string or some non-string value (the `typeof key !== "string"` branch of
`Cache._fixKey` only cares about this distinction). -/
inductive KeyInput : Type where
  | str (s : String) : KeyInput
  | nonString : KeyInput

/-- `Cache._fixKey`, string case (source `src/index.ts` lines 459-463):
`if (key.length === 0 || key.charAt(key.length - 1) !== this._separator)
return key + this._separator; return key;`.  `charAt(len-1)` is the last
character; the separator is a single character (spec section 3). -/
def fixKey (sep : Char) (key : String) : String :=
  if key.length = 0 ∨ key.data.getLast? ≠ some sep then key ++ sep.toString else key

/-- `Cache._fixKey` in full, including the
`if (typeof key !== "string") return this._separator;` guard. -/
def fixKeyVal (sep : Char) : KeyInput → String
  | .str key => fixKey sep key
  | .nonString => sep.toString

/-- `Cache._subkey(parentKey, key)`: `return parentKey + this._fixKey(key);`
(source `src/index.ts` lines 471-473). -/
def subkeyOf (sep : Char) (parentKey : String) (key : String) : String :=
  parentKey ++ fixKey sep key

/-- The `Item` class of `src/unnamed/part_000`. -/
structure Item (α : Type) where
  key : String
  lastAccess : Nat
  lastSave : Nat
  dirty : Bool
  data : α
  deriving Repr, DecidableEq

/-- The `Item` constructor: `lastAccess = Date.now(); this.dirty = dirty;
if (dirty) this.lastSave = 0; else this.lastSave = this.lastAccess;`. -/
def Item.create (now : Nat) (key : String) (data : α) (dirty : Bool) : Item α :=
  { key := key, lastAccess := now, dirty := dirty,
    lastSave := if dirty then 0 else now, data := data }

/-- `Item.update(data)`: store data, refresh access time, set dirty. -/
def Item.update (it : Item α) (data : α) (now : Nat) : Item α :=
  { it with data := data, lastAccess := now, dirty := true }

/-- `Item.markSaved(time = 0)`: `this.lastSave = time || Date.now();
this.dirty = false;` — a `time` of `0` is falsy, so the current time is
used instead. -/
def Item.markSaved (it : Item α) (now : Nat) (time : Nat) : Item α :=
  { it with lastSave := if time = 0 then now else time, dirty := false }

/-- The Item bookkeeping invariant of spec section 3: a clean item has a
positive last-save timestamp. -/
def Item.inv (it : Item α) : Prop := it.dirty = false → 0 < it.lastSave

/-- `Loader<Data> = (key: string) => Promise<Data>`: may reject (with a JS
value, modelled in `ε`) or resolve (possibly with `undefined`). -/
abbrev Loader (ε α : Type) := String → Except ε (Option α)

/-- `Saver = (key: string, data: any) => Promise<any>`. -/
abbrev Saver (ε α : Type) := String → α → Except ε (Option α)

/-- `Checker = (key: string) => Promise<boolean>`. -/
abbrev Checker (ε : Type) := String → Except ε Bool

/-- `Deleter = (key: string) => Promise<boolean>`. -/
abbrev Deleter (ε : Type) := String → Except ε Bool

/-- `Reviver<T> = (data: any) => T`. -/
abbrev Reviver (α : Type) := α → α

mutual

/-- The TS `Cache` class (fields in declaration order: `_cacheKey`,
`_separator`, `_loader`, `_saver`, `_checker`, `_deleter`, `_reviver`,
`lastAccess`, `_dict`).  The `_dict : Map<string, Item | Cache>` is an
insertion-ordered `EntryList`. -/
inductive Cache (ε α : Type) : Type where
  | mk (cacheKey : String) (separator : Char)
       (loader : Option (Loader ε α)) (saver : Option (Saver ε α))
       (checker : Option (Checker ε)) (deleter : Option (Deleter ε))
       (reviver : Option (Reviver α)) (lastAccess : Nat)
       (dict : EntryList ε α) : Cache ε α

/-- The contents of a `Map<string, Item<T> | Cache<T>>`, in insertion
order. -/
inductive EntryList (ε α : Type) : Type where
  | nil : EntryList ε α
  | cons (key : String) (entry : Entry ε α) (rest : EntryList ε α) : EntryList ε α

/-- One value of the dictionary: `Item<T> | Cache<T>`. -/
inductive Entry (ε α : Type) : Type where
  | item (it : Item α) : Entry ε α
  | sub (c : Cache ε α) : Entry ε α

end

/-- One element of the array joined by `Promise.all` in `Cache.backup`:
either the settled value of one `saver(...).then(null, err => err)` call,
or the resolution of a child subcache backup (the own outcome array of that child, or `undefined` when the child has no saver). -/
inductive BackupOutcome (ε α : Type) : Type where
  | save (v : Option α) : BackupOutcome ε α
  | failed (e : ε) : BackupOutcome ε α
  | subResult (vs : Option (List (BackupOutcome ε α))) : BackupOutcome ε α

/-- Events emitted through the `eventemitter3` base class.  The emitting
node also passes itself as an argument to `subcreate`, `backup` and
`cleanup`; the embedding records the remaining payload. -/
inductive Event (ε α : Type) : Type where
  | error (phase : String) (key : String) : Event ε α
  | subcreate (key : String) : Event ε α
  | backupDone (vals : List (BackupOutcome ε α)) : Event ε α
  | cleanupDone (vals : List (Option α)) : Event ε α

/-- What a read of `entry.data` yields: `undefined`, an Item payload, or —
when the entry is a subcache — the internal `Map` of the child (the `data`
getter of `Cache` returns `this._dict`). -/
inductive GetResult (ε α : Type) : Type where
  | undef : GetResult ε α
  | val (a : α) : GetResult ε α
  | dict (d : EntryList ε α) : GetResult ε α

def Cache.cacheKey : Cache ε α → String
  | .mk ck _ _ _ _ _ _ _ _ => ck

def Cache.separator : Cache ε α → Char
  | .mk _ sep _ _ _ _ _ _ _ => sep

def Cache.loader : Cache ε α → Option (Loader ε α)
  | .mk _ _ ld _ _ _ _ _ _ => ld

def Cache.saver : Cache ε α → Option (Saver ε α)
  | .mk _ _ _ sv _ _ _ _ _ => sv

def Cache.checker : Cache ε α → Option (Checker ε)
  | .mk _ _ _ _ chk _ _ _ _ => chk

def Cache.deleter : Cache ε α → Option (Deleter ε)
  | .mk _ _ _ _ _ dl _ _ _ => dl

def Cache.reviver : Cache ε α → Option (Reviver α)
  | .mk _ _ _ _ _ _ rv _ _ => rv

def Cache.lastAccess : Cache ε α → Nat
  | .mk _ _ _ _ _ _ _ la _ => la

/-- The `data` getter of `Cache` returns the dictionary itself
(`get data() { return this._dict; }`). -/
def Cache.dict : Cache ε α → EntryList ε α
  | .mk _ _ _ _ _ _ _ _ d => d

def Cache.withDict (c : Cache ε α) (d : EntryList ε α) : Cache ε α :=
  match c with
  | .mk ck sep ld sv chk dl rv la _ => .mk ck sep ld sv chk dl rv la d

def Cache.withLastAccess (c : Cache ε α) (now : Nat) : Cache ε α :=
  match c with
  | .mk ck sep ld sv chk dl rv _ d => .mk ck sep ld sv chk dl rv now d

def Cache.withCacheKey (c : Cache ε α) (ck : String) : Cache ε α :=
  match c with
  | .mk _ sep ld sv chk dl rv la d => .mk ck sep ld sv chk dl rv la d

/-- `Map.prototype.get`. -/
def EntryList.get? : EntryList ε α → String → Option (Entry ε α)
  | .nil, _ => none
  | .cons k e rest, key => if k = key then some e else rest.get? key

/-- `Map.prototype.set`: overwrite in place if the key is present,
otherwise append in insertion order. -/
def EntryList.set : EntryList ε α → String → Entry ε α → EntryList ε α
  | .nil, key, e => .cons key e .nil
  | .cons k e0 rest, key, e =>
      if k = key then .cons k e rest else .cons k e0 (rest.set key e)

/-- `Map.prototype.has`. -/
def EntryList.has : EntryList ε α → String → Bool
  | .nil, _ => false
  | .cons k _ rest, key => if k = key then true else rest.has key

/-- The `CacheOpts<T>` object passed to the `Cache` constructor. -/
structure CacheOpts (ε α : Type) where
  cacheKey : Option String
  loader : Option (Loader ε α)
  saver : Option (Saver ε α)
  reviver : Option (Reviver α)
  deleter : Option (Deleter ε)
  checker : Option (Checker ε)
  subcacheSeparator : Option Char

/-- The `Cache` constructor: copies the five hooks, then
`this._separator = opts?.subcacheSeparator ?? '/'` and
`this._cacheKey = opts?.cacheKey ?? this._separator` (a direct field
assignment: the constructor does not normalize the key).  `lastAccess`
starts at `0` and the dictionary starts empty. -/
def Cache.create (opts : CacheOpts ε α) : Cache ε α :=
  let sep := opts.subcacheSeparator.getD '/'
  .mk (opts.cacheKey.getD sep.toString) sep opts.loader opts.saver
    opts.checker opts.deleter opts.reviver 0 .nil

/-- Reading `entry.data` from a dictionary slot: an `Item` yields its
payload; a subcache yields its internal dictionary (the `data` getter of
`Cache` returns `this._dict`). -/
def Entry.data : Entry ε α → GetResult ε α
  | .item it => .val it.data
  | .sub c => .dict c.dict

/-- The assignment `entry.lastAccess = Date.now()` performed by `get` and
by the in-memory branch of `fetch` (both `Item` and `Cache` have a
`lastAccess` field). -/
def Entry.touch (now : Nat) : Entry ε α → Entry ε α
  | .item it => .item { it with lastAccess := now }
  | .sub c => .sub (c.withLastAccess now)

/-- The keys visited by `for (const k in dict)` in the TS source, where
`dict` is `this._dict : Map<...>`: `for..in` enumerates the own enumerable string properties of an object, and a JS `Map` stores its entries in
internal slots rather than as properties, so the loop visits no keys. -/
def forInKeys (_dict : EntryList ε α) : List String := ([] : List String)

/-- `Cache.get(key)` (source `src/index.ts` lines 262-271): look the key
up in `_dict`; on a hit refresh the `lastAccess` of the entry and return its
`data`, otherwise return `undefined`.  Returns the read result together
with the updated node. -/
def Cache.get (c : Cache ε α) (key : String) (now : Nat) :
    GetResult ε α × Cache ε α :=
  match c.dict.get? key with
  | some it => (it.data, c.withDict (c.dict.set key (it.touch now)))
  | none => (.undef, c)

/-- The ternary `reviver ? reviver(data) : data` of `Cache.fetch`. -/
def reviveVal (rv : Option (Reviver α)) (d : α) : α :=
  match rv with
  | some reviver => reviver d
  | none => d

/-- `Cache.fetch(key)` (source `src/index.ts` lines 199-227): in-memory
hit behaves like `get`; otherwise, with no loader, resolve `undefined`;
otherwise await `loader(this._cacheKey + key)` — a rejection is caught and
emits `("error", "fetch", key)` with the call resolving `undefined`; a
resolution of `undefined` resolves `undefined` without inserting; any
other resolution is revived, inserted as `new Item(key, value, false)` and
returned.  Result: (resolved value, updated node, emitted events). -/
def Cache.fetch (c : Cache ε α) (key : String) (now : Nat) :
    GetResult ε α × Cache ε α × List (Event ε α) :=
  match c.dict.get? key with
  | some it => (it.data, c.withDict (c.dict.set key (it.touch now)), [])
  | none =>
    match c.loader with
    | none => (.undef, c, [])
    | some loader =>
      match loader (c.cacheKey ++ key) with
      | .error _e => (.undef, c, [.error "fetch" key])
      | .ok none => (.undef, c, [])
      | .ok (some data) =>
        let value := reviveVal c.reviver data
        (.val value,
         c.withDict (c.dict.set key (.item (Item.create now key value false))), [])

/-- `Cache.store(key, value)` (source `src/index.ts` lines 236-255):
`new Item(key, value)` is installed in `_dict` and `markSaved()` is called
on it; then, if a saver exists, the call resolves with
`saver(this._cacheKey + key, value).then(null, err => err)` — the
fulfilment value of the saver passes through unchanged and a rejection is
converted into a resolution carrying the error.  With no saver the call
resolves `undefined`.  Result: (resolved value, updated node); the first
component `none` is a resolution with `undefined`, `some e` after a saver
rejection with `e` is the converted error. -/
def Cache.store (c : Cache ε α) (key : String) (value : α) (now : Nat) :
    Option (Except ε (Option α)) × Cache ε α :=
  let item := (Item.create now key value true).markSaved now 0
  let c1 := c.withDict (c.dict.set key (.item item))
  match c.saver with
  | none => (none, c1)
  | some saver =>
    match saver (c.cacheKey ++ key) value with
    | .ok r => (some (.ok r), c1)
    | .error err => (some (.error err), c1)

/-- `Cache.has(key)`: `this._dict.has(key)`. -/
def Cache.has (c : Cache ε α) (key : String) : Bool :=
  c.dict.has key

/-- `Cache.subcache(subkey, reviver?)` (source `src/index.ts` lines
171-190): compose the full key with `_subkey`; if an entry exists there
and is itself a `Cache`, return it; otherwise construct a child `Cache`
inheriting the hooks of this node, install it under the composed key, and emit
`("subcreate", this, subkey)`.  Result: (returned child, updated parent,
emitted events). -/
def Cache.subcache (c : Cache ε α) (subkey : String) (reviver : Option (Reviver α)) :
    Cache ε α × Cache ε α × List (Event ε α) :=
  let key := subkeyOf c.separator c.cacheKey subkey
  match c.dict.get? key with
  | some (.sub cache) => (cache, c, [])
  | _ =>
    let cache : Cache ε α := Cache.create
      { cacheKey := some key, loader := c.loader, saver := c.saver,
        reviver := reviver, deleter := c.deleter, checker := c.checker,
        subcacheSeparator := none }
    (cache, c.withDict (c.dict.set key (.sub cache)), [.subcreate key])

/-- The options object received by `Cache.settings`.  The method guards
each hook with `opts.hasOwnProperty(...)`, which is true even when the
property is present with value `undefined`; each hook field is therefore
doubly optional: the outer `Option` is property presence, the inner one
the property value.  `cacheKey` is only read through `??` and `!==`, for
which an absent and an `undefined` property behave alike. -/
structure SettingsOpts (ε α : Type) where
  loaderProp : Option (Option (Loader ε α))
  saverProp : Option (Option (Saver ε α))
  checkerProp : Option (Option (Checker ε))
  deleterProp : Option (Option (Deleter ε))
  reviverProp : Option (Option (Reviver α))
  cacheKey : Option String

/-- `Cache.settings(opts, propagate = true)` (source `src/index.ts` lines
128-163): overwrite each hook whose property is present in `opts`, then
run the `cacheKey` setter (`_fixKey`) on `opts.cacheKey ?? this._cacheKey`.
The `if (propagate)` block iterates `for (const k in dict)` — but `dict`
is `this._dict : Map`, so the loop visits `forInKeys dict = []`: no child
cache is ever visited and nothing is propagated (the loop body, which
would call `item.settings` on each child `Cache`, is dead code; the
`keyChanged` flag computed from `opts.cacheKey !== this._cacheKey` is only
used inside it). -/
def Cache.settings (c : Cache ε α) (opts : SettingsOpts ε α) (propagate : Bool) :
    Cache ε α :=
  match c with
  | .mk ck sep ld sv chk dl rv la d =>
    let ld1 := match opts.loaderProp with | some v => v | none => ld
    let sv1 := match opts.saverProp with | some v => v | none => sv
    let chk1 := match opts.checkerProp with | some v => v | none => chk
    let dl1 := match opts.deleterProp with | some v => v | none => dl
    let rv1 := match opts.reviverProp with | some v => v | none => rv
    let ck1 := fixKey sep (opts.cacheKey.getD ck)
    let _ := propagate
    let _ := forInKeys d
    .mk ck1 sep ld1 sv1 chk1 dl1 rv1 la d

/-- `Cache._cleanNoSave(time)` (source `src/index.ts` lines 401-419):
iterates `for (const k in dict)` over the `Map` — `forInKeys dict = []`,
so no entry is ever examined or deleted and the node is left unchanged. -/
def Cache.cleanNoSave (c : Cache ε α) (time now : Nat) : Cache ε α :=
  let _ := time
  let _ := now
  let _ := forInKeys c.dict
  c

/-- `Cache.cleanup(time)` (source `src/index.ts` lines 357-395): with no
saver it returns `this._cleanNoSave(time)` (resolving `undefined`, no
event).  With a saver it iterates `for (const k in dict)` to evict stale
entries and dispatch saves — but `dict` is a `Map`, so the loop visits
`forInKeys dict = []` keys: `saves` stays empty, nothing is evicted, no
save is dispatched, and the call resolves `Promise.all([])` = `[]` after
emitting `("cleanup", this, [])`.  Result: (updated node, resolved value —
`none` for `undefined`, `some vals` for the outcome array — and emitted
events). -/
def Cache.cleanup (c : Cache ε α) (time now : Nat) :
    Cache ε α × Option (List (Option α)) × List (Event ε α) :=
  match c.saver with
  | none => (c.cleanNoSave time now, none, [])
  | some _saver =>
    let _ := forInKeys c.dict
    (c, some [], [.cleanupDone []])

mutual

/-- `Cache.backup(time)` (source `src/index.ts` lines 314-348): with no
saver resolve `undefined` immediately (no recursion, no event).  Otherwise
walk `this._dict.values()`: a child `Cache` contributes its own recursive
`backup` resolution to `saves`; an `Item` that is dirty with
`now - item.lastSave > time` contributes
`saver(this._cacheKey + item.key, item.data).then(null, err => err)`.
`Promise.all(saves)` is then joined and `("backup", this, vals)` emitted.
No entry is modified: in particular `markSaved` is never called.  Result:
(node after the sweep, resolved value, emitted events). -/
def Cache.backup (c : Cache ε α) (time now : Nat) :
    Cache ε α × Option (List (BackupOutcome ε α)) × List (Event ε α) :=
  match c with
  | .mk ck sep ld sv chk dl rv la dict =>
    match sv with
    | none => (.mk ck sep ld none chk dl rv la dict, none, [])
    | some saver =>
      let r := EntryList.backupSweep ck saver time now dict
      (.mk ck sep ld (some saver) chk dl rv la r.1, some r.2.1,
        r.2.2 ++ [.backupDone r.2.1])

/-- The `for (const item of dict.values())` loop body of `Cache.backup`,
over the whole dictionary.  Returns the dictionary as the sweep leaves it
(entries are reconstructed slot by slot), the `saves` outcome array in
order, and the events emitted by recursive child sweeps. -/
def EntryList.backupSweep (ck : String) (saver : Saver ε α) (time now : Nat) :
    EntryList ε α → EntryList ε α × List (BackupOutcome ε α) × List (Event ε α)
  | .nil => (.nil, [], [])
  | .cons k e rest =>
    let (e1, outs, evs) :=
      match e with
      | .sub child =>
        let (child1, res, evs) := Cache.backup child time now
        (Entry.sub child1, [BackupOutcome.subResult res], evs)
      | .item it =>
        if it.dirty ∧ now - it.lastSave > time then
          match saver (ck ++ it.key) it.data with
          | .ok v => (Entry.item it, [BackupOutcome.save v], [])
          | .error err => (Entry.item it, [BackupOutcome.failed err], [])
        else (Entry.item it, [], [])
    let (rest1, outs2, evs2) := EntryList.backupSweep ck saver time now rest
    (.cons k e1 rest1, outs ++ outs2, evs ++ evs2)

end

/-! ### Concrete fixtures used by counterexamples and witnesses -/

/-- A saver that always fulfils with `undefined`. -/
def saverOkNone : Saver Nat Nat := fun _ _ => Except.ok none

/-- A saver that fulfils with the defined value `42`. -/
def saverOk42 : Saver Nat Nat := fun _ _ => Except.ok (some 42)

/-- A saver that always rejects with the error value `9`. -/
def saverReject9 : Saver Nat Nat := fun _ _ => Except.error 9

/-- A loader that fulfils with the defined value `3`. -/
def loaderOk3 : Loader Nat Nat := fun _ => Except.ok (some 3)

/-- A loader that always rejects with the error value `7`. -/
def loaderRej7 : Loader Nat Nat := fun _ => Except.error 7

/-- A reviver that adds one. -/
def reviverInc : Reviver Nat := fun d => d + 1

/-- A dirty item last accessed (and never saved) at time 0. -/
def itemStale : Item Nat :=
  { key := "a", lastAccess := 0, lastSave := 0, dirty := true, data := 1 }

/-- A node with a saver holding the single stale dirty item. -/
def cacheC1 : Cache Nat Nat :=
  .mk "/" '/' none (some saverOkNone) none none none 0
    (.cons "a" (.item itemStale) .nil)

/-- An empty child subcache with no hooks, as `subcache` would create it
under the composed key. -/
def childNode : Cache Nat Nat := .mk "/u/" '/' none none none none none 0 .nil

/-- A parent node holding `childNode` under the composed key. -/
def parentNode : Cache Nat Nat :=
  .mk "/" '/' none none none none none 0 (.cons "/u/" (.sub childNode) .nil)

/-- A settings object whose `saver` property is present. -/
def optsSetSaver : SettingsOpts Nat Nat :=
  { loaderProp := none, saverProp := some (some saverOkNone),
    checkerProp := none, deleterProp := none, reviverProp := none,
    cacheKey := none }

/-- An empty node whose saver fulfils with the defined value `42`. -/
def cacheStore42 : Cache Nat Nat := .mk "/" '/' none (some saverOk42) none none none 0 .nil

/-- An empty node whose saver rejects with `9`. -/
def cacheStoreRej : Cache Nat Nat := .mk "/" '/' none (some saverReject9) none none none 0 .nil

/-- An empty node with a loader fulfilling `3` and a reviver adding one. -/
def cacheLoad : Cache Nat Nat :=
  .mk "/" '/' (some loaderOk3) none none none (some reviverInc) 0 .nil

/-- An empty node whose loader rejects with `7`. -/
def cacheLoadRej : Cache Nat Nat :=
  .mk "/" '/' (some loaderRej7) none none none none 0 .nil

/-! ### Supporting lemmas -/

theorem fixKey_of_getLast (sep : Char) (key : String)
    (h : key.data.getLast? = some sep) : fixKey sep key = key := by
  have hne : key.data ≠ [] := by
    intro hnil
    rw [hnil] at h
    exact Option.noConfusion h
  have hlen : key.length ≠ 0 := by
    intro hzero
    exact hne (List.eq_nil_of_length_eq_zero hzero)
  simp [fixKey, hlen, h]

theorem data_append_singleton (key : String) (sep : Char) :
    (key ++ sep.toString).data = key.data ++ [sep] := rfl

theorem getLast_append_singleton (key : String) (sep : Char) :
    (key ++ sep.toString).data.getLast? = some sep := by
  rw [data_append_singleton]
  exact List.getLast?_concat _

theorem fixKey_idem (sep : Char) (key : String) :
    fixKey sep (fixKey sep key) = fixKey sep key := by
  by_cases h : key.length = 0 ∨ key.data.getLast? ≠ some sep
  · have h1 : fixKey sep key = key ++ sep.toString := by simp [fixKey, h]
    rw [h1]
    exact fixKey_of_getLast _ _ (getLast_append_singleton key sep)
  · have h1 : fixKey sep key = key := by simp [fixKey]; tauto
    rw [h1, h1]

@[simp] theorem Cache.cacheKey_mk (ck : String) (sep : Char)
    (ld : Option (Loader ε α)) (sv : Option (Saver ε α)) (chk : Option (Checker ε))
    (dl : Option (Deleter ε)) (rv : Option (Reviver α)) (la : Nat) (d : EntryList ε α) :
    (Cache.mk ck sep ld sv chk dl rv la d).cacheKey = ck := rfl

@[simp] theorem Cache.separator_mk (ck : String) (sep : Char)
    (ld : Option (Loader ε α)) (sv : Option (Saver ε α)) (chk : Option (Checker ε))
    (dl : Option (Deleter ε)) (rv : Option (Reviver α)) (la : Nat) (d : EntryList ε α) :
    (Cache.mk ck sep ld sv chk dl rv la d).separator = sep := rfl

@[simp] theorem Cache.dict_mk (ck : String) (sep : Char)
    (ld : Option (Loader ε α)) (sv : Option (Saver ε α)) (chk : Option (Checker ε))
    (dl : Option (Deleter ε)) (rv : Option (Reviver α)) (la : Nat) (d : EntryList ε α) :
    (Cache.mk ck sep ld sv chk dl rv la d).dict = d := rfl

@[simp] theorem Cache.saver_mk (ck : String) (sep : Char)
    (ld : Option (Loader ε α)) (sv : Option (Saver ε α)) (chk : Option (Checker ε))
    (dl : Option (Deleter ε)) (rv : Option (Reviver α)) (la : Nat) (d : EntryList ε α) :
    (Cache.mk ck sep ld sv chk dl rv la d).saver = sv := rfl

@[simp] theorem Cache.cacheKey_withDict (c : Cache ε α) (d : EntryList ε α) :
    (c.withDict d).cacheKey = c.cacheKey := by cases c; rfl

@[simp] theorem Cache.separator_withDict (c : Cache ε α) (d : EntryList ε α) :
    (c.withDict d).separator = c.separator := by cases c; rfl

@[simp] theorem Cache.dict_withDict (c : Cache ε α) (d : EntryList ε α) :
    (c.withDict d).dict = d := by cases c; rfl

@[simp] theorem Cache.loader_withDict (c : Cache ε α) (d : EntryList ε α) :
    (c.withDict d).loader = c.loader := by cases c; rfl

@[simp] theorem Cache.saver_withDict (c : Cache ε α) (d : EntryList ε α) :
    (c.withDict d).saver = c.saver := by cases c; rfl

@[simp] theorem Cache.reviver_withDict (c : Cache ε α) (d : EntryList ε α) :
    (c.withDict d).reviver = c.reviver := by cases c; rfl

@[simp] theorem EntryList.get?_set_self (l : EntryList ε α) (key : String) (e : Entry ε α) :
    (l.set key e).get? key = some e := by
  match l with
  | .nil => simp [EntryList.set, EntryList.get?]
  | .cons k e0 rest =>
      by_cases h : k = key
      · simp [EntryList.set, EntryList.get?, h]
      · simp [EntryList.set, EntryList.get?, h, EntryList.get?_set_self rest key e]

theorem EntryList.has_eq_isSome (l : EntryList ε α) (key : String) :
    l.has key = (l.get? key).isSome := by
  match l with
  | .nil => simp [EntryList.has, EntryList.get?]
  | .cons k e0 rest =>
      by_cases h : k = key
      · simp [EntryList.has, EntryList.get?, h]
      · simp [EntryList.has, EntryList.get?, h, EntryList.has_eq_isSome rest key]

mutual

theorem backup_state_eq (c : Cache ε α) (t n : Nat) :
    (Cache.backup c t n).1 = c := by
  match c with
  | .mk ck sep ld sv chk dl rv la d =>
    cases sv with
    | none => simp [Cache.backup]
    | some saver =>
        simp [Cache.backup, backupSweep_state_eq ck saver t n d]

theorem backupSweep_state_eq (ck : String) (saver : Saver ε α) (t n : Nat)
    (l : EntryList ε α) : (EntryList.backupSweep ck saver t n l).1 = l := by
  match l with
  | .nil => simp [EntryList.backupSweep]
  | .cons k e rest =>
      have hrest := backupSweep_state_eq ck saver t n rest
      cases e with
      | sub child =>
          have hc := backup_state_eq child t n
          simp [EntryList.backupSweep, hrest, hc]
      | item it =>
          by_cases hd : it.dirty ∧ n - it.lastSave > t
          · cases hs : saver (ck ++ it.key) it.data with
            | ok v => simp [EntryList.backupSweep, hrest, hd, hs]
            | error er => simp [EntryList.backupSweep, hrest, hd, hs]
          · simp [EntryList.backupSweep, hrest, hd]

end

/-! ### The claims -/

/-- C9: key normalization is idempotent (`normalize(normalize(x, sep), sep)
= normalize(x, sep)`), non-string input normalizes to the bare separator,
and key composition is prefix-preserving: `compose(a, b)` extends `a`. -/
theorem claim9_normalize_idem_compose_extends (sep : Char) (x : KeyInput)
    (a b : String) :
    fixKeyVal sep (.str (fixKeyVal sep x)) = fixKeyVal sep x
    ∧ fixKeyVal sep .nonString = sep.toString
    ∧ ∃ t, subkeyOf sep a b = a ++ t := by
  refine ⟨?_, rfl, ⟨fixKey sep b, rfl⟩⟩
  cases x with
  | str k => exact fixKey_idem sep k
  | nonString =>
      show fixKey sep sep.toString = sep.toString
      exact fixKey_of_getLast _ _ rfl

/-- C8: the Item invariant — `dirty == false` implies `lastSave > 0` —
holds after construction with either dirty flag, after every `update`, and
after every `markSaved` including the `time = 0` default; moreover a clean
construction and a defaulted `markSaved` record the current (positive)
time in `lastSave`, the time the data was last known persisted. -/
theorem claim8_item_invariant (key : String) (d d2 : α) (b : Bool)
    (it : Item α) (now m : Nat) (h : 0 < now) :
    (Item.create now key d b).inv
    ∧ (it.update d2 now).inv
    ∧ (it.markSaved now m).inv
    ∧ (Item.create now key d false).lastSave = now
    ∧ (it.markSaved now 0).lastSave = now := by
  refine ⟨?_, ?_, ?_, ?_, ?_⟩
  · intro hdirty
    have hb : b = false := hdirty
    simp [Item.create, hb, h]
  · intro hdirty
    simp [Item.update] at hdirty
  · intro _
    simp only [Item.markSaved]
    cases m with
    | zero => simpa using h
    | succ m0 => simp
  · simp [Item.create]
  · simp [Item.markSaved]

/-- Witness for C8 at concrete inputs (`now = 5 > 0`). -/
theorem claim8_item_invariant_witness :
    (Item.create 5 "k" (0 : Nat) false).inv
    ∧ (itemStale.update 3 5).inv
    ∧ (itemStale.markSaved 5 0).inv
    ∧ (Item.create 5 "k" (0 : Nat) false).lastSave = 5
    ∧ (itemStale.markSaved 5 0).lastSave = 5 := by
  have h := claim8_item_invariant "k" (0 : Nat) 3 false itemStale 5 0 (by decide)
  exact ⟨h.1, h.2.1, h.2.2.1, h.2.2.2.1, h.2.2.2.2⟩

/-- C4: `backup` never marks an item saved: the sweep returns the node
tree completely unchanged (every reachable item keeps its `dirty` flag and
`lastSave` timestamp, successfully dispatched saves included), so any
subsequent backup sweep dispatches exactly the same outcomes again. -/
theorem claim4_backup_never_marks_saved (c : Cache ε α) (t n t2 n2 : Nat) :
    (c.backup t n).1 = c
    ∧ ((c.backup t n).1.backup t2 n2).2 = (c.backup t2 n2).2 := by
  have h := backup_state_eq c t n
  exact ⟨h, by rw [h]⟩

/-- C5: on a locally absent key whose configured loader rejects, `fetch`
swallows the failure, emits an `error` event with phase `"fetch"` and the
key, resolves undefined, and inserts no entry — the node is unchanged and
the key still absent, indistinguishable from a plain miss. -/
theorem claim5_fetch_load_failure (c : Cache ε α) (k : String) (now : Nat)
    (L : Loader ε α) (e : ε)
    (h1 : c.dict.get? k = none) (h2 : c.loader = some L)
    (h3 : L (c.cacheKey ++ k) = .error e) :
    c.fetch k now = (.undef, c, [.error "fetch" k])
    ∧ (c.fetch k now).2.1.has k = false := by
  have hmain : c.fetch k now = (.undef, c, [.error "fetch" k]) := by
    simp [Cache.fetch, h1, h2, h3]
  refine ⟨hmain, ?_⟩
  rw [hmain]
  simp [Cache.has, EntryList.has_eq_isSome, h1]

/-- Witness for C5: a node whose loader rejects with `7`. -/
theorem claim5_fetch_load_failure_witness :
    cacheLoadRej.fetch "m" 5 = (.undef, cacheLoadRej, [.error "fetch" "m"])
    ∧ (cacheLoadRej.fetch "m" 5).2.1.has "m" = false :=
  claim5_fetch_load_failure cacheLoadRej "m" 5 loaderRej7 7 rfl rfl rfl

/-- C6: on a locally absent key with a configured loader, a load resolving
a defined value is revived (when a reviver is set), inserted as a fresh
Item with `dirty = false` and `lastAccess = lastSave = now`, and returned;
a load resolving undefined resolves absent and inserts nothing. -/
theorem claim6_fetch_load_success (c : Cache ε α) (k : String) (now : Nat)
    (L : Loader ε α)
    (h1 : c.dict.get? k = none) (h2 : c.loader = some L) :
    (∀ d, L (c.cacheKey ++ k) = .ok (some d) →
        c.fetch k now =
          (.val (reviveVal c.reviver d),
           c.withDict (c.dict.set k
             (.item (Item.create now k (reviveVal c.reviver d) false))), []))
    ∧ (L (c.cacheKey ++ k) = .ok none → c.fetch k now = (.undef, c, []))
    ∧ ∀ (x : α), (Item.create now k x false).dirty = false
        ∧ (Item.create now k x false).lastAccess = now
        ∧ (Item.create now k x false).lastSave = now := by
  refine ⟨?_, ?_, ?_⟩
  · intro d hd
    simp [Cache.fetch, h1, h2, hd]
  · intro hd
    simp [Cache.fetch, h1, h2, hd]
  · intro x
    simp [Item.create]

/-- Witness for C6: loader fulfils `3`, the reviver adds one, and the
revived value `4` is returned and cached. -/
theorem claim6_fetch_load_success_witness :
    cacheLoad.fetch "m" 5 =
      (.val (reviveVal cacheLoad.reviver 3),
       cacheLoad.withDict (cacheLoad.dict.set "m"
         (.item (Item.create 5 "m" (reviveVal cacheLoad.reviver 3) false))), [])
    ∧ reviveVal cacheLoad.reviver 3 = 4 :=
  ⟨(claim6_fetch_load_success cacheLoad "m" 5 loaderOk3 rfl rfl).1 3 rfl, rfl⟩

/-- C10: an entry bound to a child subcache is not treated as absent by
the synchronous read path: `get` refreshes the `lastAccess` of the child node
and returns its `data` property — the internal entries map of the child — and
the in-memory branch of `fetch` behaves identically (with no events). -/
theorem claim10_get_subcache_entry (c child : Cache ε α) (k : String) (now : Nat)
    (h : c.dict.get? k = some (.sub child)) :
    (c.get k now).1 = .dict child.dict
    ∧ (c.get k now).2.dict.get? k = some (.sub (child.withLastAccess now))
    ∧ c.fetch k now = ((c.get k now).1, (c.get k now).2, []) := by
  refine ⟨?_, ?_, ?_⟩
  · simp [Cache.get, h, Entry.data]
  · simp [Cache.get, h, Entry.touch]
  · simp [Cache.get, Cache.fetch, h]

/-- Witness for C10: reading the composed key of `childNode` from
`parentNode`. -/
theorem claim10_get_subcache_entry_witness :
    (parentNode.get "/u/" 9).1 = .dict childNode.dict
    ∧ (parentNode.get "/u/" 9).2.dict.get? "/u/"
        = some (.sub (childNode.withLastAccess 9))
    ∧ parentNode.fetch "/u/" 9
        = ((parentNode.get "/u/" 9).1, (parentNode.get "/u/" 9).2, []) :=
  claim10_get_subcache_entry parentNode childNode "/u/" 9 rfl

/-- C7: subcache creation is idempotent — a second `subcache` call with
the same key on the resulting node returns the very child the first call
returned, leaves the entries map unchanged, and emits no `subcreate`
event. -/
theorem claim7_subcache_idempotent (c : Cache ε α) (k : String)
    (rv rv2 : Option (Reviver α)) :
    (c.subcache k rv).2.1.subcache k rv2
      = ((c.subcache k rv).1, (c.subcache k rv).2.1, []) := by
  cases hget : c.dict.get? (subkeyOf c.separator c.cacheKey k) with
  | none =>
      simp only [Cache.subcache, hget]
      simp [Cache.subcache, hget]
  | some e =>
      cases e with
      | sub ch => simp [Cache.subcache, hget]
      | item it => simp [Cache.subcache, hget]

/-- C3 counterexample: the claim says `store` resolves to undefined
whenever the saver succeeds, but with a saver fulfilling the defined value
`42` the call resolves to that value: neither a resolution with undefined
(`some (.ok none)`) nor the no-saver undefined resolution (`none`). -/
theorem claim3_store_cex :
    (cacheStore42.store "x" 7 5).1 = some (.ok (some 42))
    ∧ (cacheStore42.store "x" 7 5).1 ≠ some (.ok none)
    ∧ (cacheStore42.store "x" 7 5).1 ≠ none := by
  have h : (cacheStore42.store "x" 7 5).1 = some (Except.ok (some 42)) := rfl
  refine ⟨h, ?_, ?_⟩ <;> rw [h] <;> simp

/-- C3 (amended): `store` never rejects — it resolves to the very
resolution value when the saver fulfils (hence to undefined only when the
saver resolves undefined), to the thrown/rejected error value when the
saver fails, and to undefined when no saver is configured; in every case
the local write is performed first, so `get(key)` afterwards returns the
stored value. -/
theorem claim3_store_never_rejects (c : Cache ε α) (k : String) (v : α)
    (now now2 : Nat) :
    (c.saver = none → (c.store k v now).1 = none)
    ∧ (∀ f r, c.saver = some f → f (c.cacheKey ++ k) v = .ok r →
        (c.store k v now).1 = some (.ok r))
    ∧ (∀ f e, c.saver = some f → f (c.cacheKey ++ k) v = .error e →
        (c.store k v now).1 = some (.error e))
    ∧ ((c.store k v now).2.get k now2).1 = .val v := by
  refine ⟨?_, ?_, ?_, ?_⟩
  · intro h
    simp [Cache.store, h]
  · intro f r hf hr
    simp [Cache.store, hf, hr]
  · intro f e hf he
    simp [Cache.store, hf, he]
  · have h2 : (c.store k v now).2
        = c.withDict (c.dict.set k
            (.item ((Item.create now k v true).markSaved now 0))) := by
      cases hsv : c.saver with
      | none => simp [Cache.store, hsv]
      | some f =>
          cases hs : f (c.cacheKey ++ k) v with
          | ok r => simp [Cache.store, hsv, hs]
          | error e => simp [Cache.store, hsv, hs]
    rw [h2]
    simp [Cache.get, Entry.data, Item.create, Item.markSaved]

/-- Witness for C3 (amended): the saver rejects with `9`; `store` resolves
to that error value and the value is nevertheless cached locally. -/
theorem claim3_store_never_rejects_witness :
    (cacheStoreRej.store "x" 7 5).1 = some (.error 9)
    ∧ ((cacheStoreRej.store "x" 7 5).2.get "x" 6).1 = .val 7 :=
  ⟨(claim3_store_never_rejects cacheStoreRej "x" 7 5 6).2.2.1 saverReject9 9 rfl rfl,
   (claim3_store_never_rejects cacheStoreRej "x" 7 5 6).2.2.2⟩

/-- C1 evaluated at a failing input: a node with a saver holds one dirty
item whose last-access age (1000 - 0) exceeds the threshold (10), yet
`cleanup` leaves the node unchanged — the key is still present afterwards
— and dispatches no save, resolving with the empty outcome array, because
its `for (const k in dict)` loop never iterates over the `Map`-backed
dictionary. -/
theorem claim1_cleanup_dead_loop :
    1000 - itemStale.lastAccess > 10
    ∧ cacheC1.cleanup 10 1000 = (cacheC1, some [], [.cleanupDone []])
    ∧ (cacheC1.cleanup 10 1000).1.has "a" = true
    ∧ itemStale.dirty = true := by
  refine ⟨by decide, rfl, rfl, rfl⟩

/-- C2 evaluated at a failing input: a parent holding one child subcache
receives a new saver via `settings(opts, propagate = true)`; the parent
itself gets the saver, but the child left in its entries still has none —
`settings` never recurses, because its `for (const k in dict)` loop never
iterates over the `Map`-backed dictionary. -/
theorem claim2_settings_dead_loop :
    (parentNode.settings optsSetSaver true).saver = some saverOkNone
    ∧ (parentNode.settings optsSetSaver true).dict.get? "/u/"
        = some (.sub childNode)
    ∧ childNode.saver = none := by
  refine ⟨rfl, ?_, rfl⟩
  simp [parentNode, Cache.settings, optsSetSaver, EntryList.get?]

end Archcache
